import Mathlib

/-!
# Verification of the Foody static config server

This file is a shallow embedding of the two Express server variants of the
repository:

* variant A — `src/web/server.js` (mounts the static asset root both at
  `/web` and at `/`, with `index: 'index.html'` and `extensions: ['html']`;
  emits `window.foodyApi=${JSON.stringify(FOODY_API)};`; has a `/health`
  route; no cache-control middleware), and
* variant B — the `server.js` embedded in `src/README.md` (a no-cache
  middleware for `.html` paths, `/` and `/config.js`; validates `FOODY_API`
  against `/^https?:\/\//`; emits `window.FOODY_API=...`; mounts the static
  root only at `/web` with `maxAge: 0`; no `/health` route).

A request is modelled by its already-decoded pathname (all routes are GET);
the asset root is an association list from relative file paths to contents.
Express/serve-static library behaviour that the code relies on is embedded
where observable: registration-order dispatch, directory `index.html`
resolution, the `extensions: ['html']` lookup (guarded, as in `send`, by
the requested path having no extension), the trailing-slash redirect
for directories, the `Cache-Control: public, max-age=0` header that
serve-static puts on files it serves (both variants run it with
`maxAge: 0`, which is also the default), and the default `404 Cannot GET`
response.  `JSON.stringify` on strings is embedded character by character
(`escChar`), and a small decoder for the emitted JavaScript sub-grammar
(`scriptValue`) recovers the identifier and string value a generated
config script assigns, so "the script assigns exactly that string" is a
provable statement.  ETag handling, mime lookup for static files and
response bodies of redirects are not observed by any claim and are left
out (static responses carry `contentType := none`).
-/

namespace Foody

/-! ## String helpers (List-Char based, so that everything kernel-evaluates) -/

/-- `pre` is a prefix of `s` (character-wise). -/
def strPre (pre s : String) : Bool := pre.data.isPrefixOf s.data

/-- `suf` is a suffix of `s` (character-wise); models `String.endsWith`. -/
def strEnds (s suf : String) : Bool := suf.data.isSuffixOf s.data

/-- Drop the first `n` characters of `s`. -/
def strDrop (s : String) (n : Nat) : String := String.mk (s.data.drop n)

/-! ## JSON.stringify on strings, and a decoder for the emitted scripts -/

/-- Lower-case hex digit, as produced by JavaScript for `\u00XX` escapes. -/
def hexDigit (n : Nat) : Char :=
  match n with
  | 0 => '0' | 1 => '1' | 2 => '2' | 3 => '3' | 4 => '4'
  | 5 => '5' | 6 => '6' | 7 => '7' | 8 => '8' | 9 => '9'
  | 10 => 'a' | 11 => 'b' | 12 => 'c' | 13 => 'd' | 14 => 'e'
  | _ => 'f'

/-- Value of a hex digit (0 for non-digits). -/
def hexVal (c : Char) : Nat :=
  if c.isDigit then c.toNat - 48
  else if 'a' ≤ c ∧ c ≤ 'f' then c.toNat - 87
  else if 'A' ≤ c ∧ c ≤ 'F' then c.toNat - 55
  else 0

/-- The escape `JSON.stringify` applies to one character of a string:
`"` and `\` get a backslash, the named control escapes `\b \t \n \f \r`
are used where they exist, any other control character becomes `\u00XX`,
and everything else is emitted verbatim. -/
def escChar (c : Char) : List Char :=
  if c = '"' then ['\\', '"']
  else if c = '\\' then ['\\', '\\']
  else if c = '\x08' then ['\\', 'b']
  else if c = '\x09' then ['\\', 't']
  else if c = '\x0a' then ['\\', 'n']
  else if c = '\x0c' then ['\\', 'f']
  else if c = '\x0d' then ['\\', 'r']
  else if c.toNat < 32 then
    ['\\', 'u', '0', '0', hexDigit (c.toNat / 16), hexDigit (c.toNat % 16)]
  else [c]

/-- All characters of a string, escaped. -/
def escAll (cs : List Char) : List Char := cs.flatMap escChar

/-- `JSON.stringify` of a string: a double-quoted escaped literal. -/
def jsonQuote (s : String) : String := String.mk ('"' :: escAll s.data ++ ['"'])

/-- Prepend a character to the string part of a parser result. -/
def push (c : Char) (o : Option (List Char × List Char)) :
    Option (List Char × List Char) :=
  o.map (fun p => (c :: p.1, p.2))

/-- Single-character escapes of JavaScript string literals. -/
def unescape1 (e : Char) : Option Char :=
  if e = '"' then some '"'
  else if e = '\'' then some '\''
  else if e = '\\' then some '\\'
  else if e = '/' then some '/'
  else if e = 'b' then some '\x08'
  else if e = 't' then some '\x09'
  else if e = 'n' then some '\x0a'
  else if e = 'f' then some '\x0c'
  else if e = 'r' then some '\x0d'
  else none

/-- Body of a JavaScript string literal with closing quote `q`: returns the
denoted character list and the unconsumed input after the closing quote. -/
def parseStrAux (q : Char) (cs : List Char) : Option (List Char × List Char) :=
  match cs with
  | [] => none
  | c :: rest =>
    if c = '\\' then
      match rest with
      | [] => none
      | e :: r =>
        if e = 'u' then
          match r with
          | a :: b :: c2 :: d :: r2 =>
            push (Char.ofNat (4096 * hexVal a + 256 * hexVal b + 16 * hexVal c2 + hexVal d))
              (parseStrAux q r2)
          | _ => none
        else
          match unescape1 e with
          | some u => push u (parseStrAux q r)
          | none => none
    else if c = q then some ([], rest)
    else push c (parseStrAux q rest)
termination_by structural cs

/-- A JavaScript string literal (double- or single-quoted): its denoted
string and the unconsumed input. -/
def parseLit (cs : List Char) : Option (String × List Char) :=
  match cs with
  | [] => none
  | c :: rest =>
    if c = '"' ∨ c = '\'' then
      (parseStrAux c rest).map (fun p => (String.mk p.1, p.2))
    else none

/-- Strip an expected literal sequence from the front of the input. -/
def stripPre (p cs : List Char) : Option (List Char) :=
  match p, cs with
  | [], rest => some rest
  | _ :: _, [] => none
  | a :: ps, c :: rest => if c = a then stripPre ps rest else none

/-- JavaScript identifier characters (the fragment the server emits uses). -/
def isIdentChar (c : Char) : Bool := c.isAlpha || c.isDigit || c = '_' || c = '$'

/-- Parse `window.<ident>=<string literal>;` returning the identifier, the
denoted string and the unconsumed input. -/
def parseAssign (cs : List Char) : Option (String × String × List Char) :=
  match stripPre "window.".data cs with
  | none => none
  | some r1 =>
    match r1.takeWhile isIdentChar with
    | [] => none
    | iden =>
      match stripPre ['='] (r1.dropWhile isIdentChar) with
      | none => none
      | some r2 =>
        match parseLit r2 with
        | none => none
        | some (v, r3) =>
          match stripPre [';'] r3 with
          | none => none
          | some r4 => some (String.mk iden, v, r4)

/-- Parse `console.error(<string literal>);` returning the unconsumed input. -/
def parseConsoleErr (cs : List Char) : Option (List Char) :=
  match stripPre "console.error(".data cs with
  | none => none
  | some r1 =>
    match parseLit r1 with
    | none => none
    | some (_, r2) => stripPre ");".data r2

/-- The identifier/value assigned by a generated config script: either a
bare `window.<ident>=<lit>;` or `console.error(<lit>); window.<ident>=<lit>;`.
`none` means the body cannot be read as such a script. -/
def scriptValue (body : String) : Option (String × String) :=
  match parseAssign body.data with
  | some (i, v, []) => some (i, v)
  | some _ => none
  | none =>
    match parseConsoleErr body.data with
    | none => none
    | some r1 =>
      match stripPre [' '] r1 with
      | none => none
      | some r2 =>
        match parseAssign r2 with
        | some (i, v, []) => some (i, v)
        | _ => none

/-! ## Cache-Control inspection -/

/-- Decimal value of a digit run. -/
def digitsVal (cs : List Char) : Nat := cs.foldl (fun a c => a * 10 + (c.toNat - 48)) 0

/-- All `max-age=` directive values occurring in a header value. -/
def maxAgeList (cs : List Char) : List Nat :=
  match cs with
  | [] => []
  | c :: rest =>
    if "max-age=".data.isPrefixOf (c :: rest) then
      digitsVal (((c :: rest).drop 8).takeWhile Char.isDigit) :: maxAgeList rest
    else maxAgeList rest
termination_by structural cs

/-- The header value contains no positive `max-age` directive. -/
def noPositiveMaxAge (s : String) : Bool := (maxAgeList s.data).all (· = 0)

/-! ## Responses -/

/-- The observable parts of an HTTP response that the claims talk about. -/
structure Resp where
  status : Nat
  contentType : Option String
  body : String
  location : Option String
  cacheControl : Option String
  pragma : Option String
  expires : Option String
  surrogateControl : Option String
deriving DecidableEq

/-- Response skeleton before any handler runs (Express defaults). -/
def emptyResp : Resp :=
  { status := 200
    contentType := none
    body := ""
    location := none
    cacheControl := none
    pragma := none
    expires := none
    surrogateControl := none }

/-- `res.json({ok:true})` body. -/
def okJson : String := "\x7b\"ok\":true\x7d"

/-- The no-cache directive of the README variant's middleware. -/
def ncCC : String := "no-store, no-cache, must-revalidate, proxy-revalidate"

/-- The `Cache-Control` serve-static sets on files it serves with `maxAge: 0`
(which is also the default used by `src/web/server.js`). -/
def staticCC : String := "public, max-age=0"

/-- Express's default 404 response (`Cannot GET <path>`). -/
def notFoundResp (base : Resp) (p : String) : Resp :=
  { base with
    status := 404
    contentType := some "text/html"
    body := "Cannot GET " ++ p }

/-! ## Static file serving (serve-static, as configured by the two variants) -/

/-- The asset root: relative file paths (no leading slash) and contents. -/
abbrev FS := List (String × String)

/-- The file stored at relative path `r`, if any. -/
def lookupFile (fs : FS) (r : String) : Option String :=
  match fs.find? (fun e => e.1 == r) with
  | some e => some e.2
  | none => none

/-- `r` is a directory of the asset root: some file lives strictly below it. -/
def isDirIn (fs : FS) (r : String) : Bool :=
  fs.any (fun e => strPre (r ++ "/") e.1)

/-- What serve-static does with a relative path: serve a file, or redirect a
directory path missing its trailing slash. -/
inductive StaticHit where
  | file (path content : String)
  | redir (loc : String)
deriving DecidableEq

/-- The path names an extension (`path.extname` is non-empty): its last
segment has a `.` past its first character (a leading dot, as in
`.bashrc`, does not count). -/
def hasDotExt (r : String) : Bool :=
  match (r.data.reverse.takeWhile (fun c => c != '/')).reverse with
  | [] => false
  | _ :: rest => rest.contains '.'

/-- serve-static resolution for relative path `r`:
a directory path (empty or ending in `/`) serves its `index.html` when
present; otherwise the file itself is looked up; a directory missing its
trailing slash is answered with a redirect adding the slash; with
`extensions: ['html']` (`useExt`), a missing path falls back to the same
name with `.html` only when the requested path has no extension of its own
(`send` guards the fallback with `!extname(path)`). `none` falls through to
the next handler. -/
def serveStatic (fs : FS) (r : String) (useExt : Bool) : Option StaticHit :=
  if r = "" ∨ strEnds r "/" then
    match lookupFile fs (r ++ "index.html") with
    | some c => some (StaticHit.file (r ++ "index.html") c)
    | none => none
  else
    match lookupFile fs r with
    | some c => some (StaticHit.file r c)
    | none =>
      if isDirIn fs r then some (StaticHit.redir (r ++ "/"))
      else if useExt && !hasDotExt r then
        match lookupFile fs (r ++ ".html") with
        | some c => some (StaticHit.file (r ++ ".html") c)
        | none => none
      else none

/-- The path relative to the `/web` mount, when the request falls under it. -/
def webRel (p : String) : Option String :=
  if p = "/web" then some ""
  else if strPre "/web/" p then some (strDrop p 5)
  else none

/-! ## Variant A — `src/web/server.js` -/

/-- `FOODY_API = process.env.FOODY_API || ''`. -/
def foodyApiOf (env : Option String) : String := env.getD ""

/-- Variant A `/config.js` handler:
`res.type('application/javascript').send(`window.foodyApi=${JSON.stringify(FOODY_API)};`)`. -/
def configRespA (env : Option String) : Resp :=
  { emptyResp with
    status := 200
    contentType := some "application/javascript"
    body := "window.foodyApi=" ++ jsonQuote (foodyApiOf env) ++ ";" }

/-- A file served by serve-static (it sets `Cache-Control: public, max-age=0`). -/
def fileResp (base : Resp) (c : String) : Resp :=
  { base with
    status := 200
    body := c
    cacheControl := some staticCC }

/-- serve-static's trailing-slash redirect for a directory path. -/
def dirRedirResp (base : Resp) (loc : String) : Resp :=
  { base with status := 301, location := some loc }

/-- Variant A route handlers after both static mounts:
`app.get('/health')` then `app.get('/')`, else the Express 404. -/
def tailA (p : String) : Resp :=
  if p = "/health" then
    { emptyResp with
      status := 200
      contentType := some "application/json"
      body := okJson }
  else if p = "/" then
    { emptyResp with status := 302, location := some "/web/buyer/" }
  else notFoundResp emptyResp p

/-- Variant A root-mounted static middleware
(`app.use(express.static(WEB_DIR, { index: 'index.html', extensions: ['html'] }))`),
falling through to the route handlers. -/
def rootStaticA (fs : FS) (p : String) : Resp :=
  match serveStatic fs (strDrop p 1) true with
  | some (StaticHit.file _ c) => fileResp emptyResp c
  | some (StaticHit.redir l) => dirRedirResp emptyResp ("/" ++ l)
  | none => tailA p

/-- `src/web/server.js`: handlers in registration order — the `/config.js`
route, the `/web`-mounted static middleware, the root-mounted static
middleware, `app.get('/health')`, `app.get('/')`, Express 404. -/
def handleA (env : Option String) (fs : FS) (p : String) : Resp :=
  if p = "/config.js" then configRespA env
  else
    match webRel p with
    | some r =>
      match serveStatic fs r true with
      | some (StaticHit.file _ c) => fileResp emptyResp c
      | some (StaticHit.redir l) => dirRedirResp emptyResp ("/web/" ++ l)
      | none => rootStaticA fs p
    | none => rootStaticA fs p

/-! ## Variant B — the server embedded in `src/README.md` -/

/-- Path predicate of the README variant's no-cache middleware:
`req.path.endsWith('.html') || req.path === '/' || req.path === '/config.js'`. -/
def noCachePred (p : String) : Bool :=
  strEnds p ".html" || p == "/" || p == "/config.js"

/-- The four headers the middleware sets. -/
def setNoCache (r : Resp) : Resp :=
  { r with
    cacheControl := some ncCC
    pragma := some "no-cache"
    expires := some "0"
    surrogateControl := some "no-store" }

/-- The README variant's `/config.js` handler:
invalid when `!FOODY_API || !/^https?:\/\//.test(FOODY_API)`. -/
def configRespB (base : Resp) (env : Option String) : Resp :=
  if foodyApiOf env = "" ∨
      ¬(strPre "http://" (foodyApiOf env) = true ∨
        strPre "https://" (foodyApiOf env) = true) then
    { base with
      status := 200
      contentType := some "application/javascript"
      body := "console.error(\x27FOODY_API is not set or invalid\x27); window.FOODY_API=\x27\x27;" }
  else
    { base with
      status := 200
      contentType := some "application/javascript"
      body := "window.FOODY_API=" ++ jsonQuote (foodyApiOf env) ++ ";" }

/-- README variant route handlers after the `/web` static mount:
`app.get('/')`, else the Express 404. -/
def tailB (base : Resp) (p : String) : Resp :=
  if p = "/" then { base with status := 302, location := some "/web/buyer/" }
  else notFoundResp base p

/-- README variant handlers below the middleware, over the response `base`
the middleware produced: the `/config.js` route, then
`express.static(path.join(__dirname,'web'), { maxAge: 0 })` mounted at
`/web` (default `index.html`, no `extensions`), then `app.get('/')`, then
the Express 404.  There is no `/health` route. -/
def routesB (base : Resp) (env : Option String) (fs : FS) (p : String) : Resp :=
  if p = "/config.js" then configRespB base env
  else
    match webRel p with
    | some r =>
      match serveStatic fs r false with
      | some (StaticHit.file _ c) => fileResp base c
      | some (StaticHit.redir l) => dirRedirResp base ("/web/" ++ l)
      | none => tailB base p
    | none => tailB base p

/-- The README `server.js`: the no-cache middleware feeding `routesB`. -/
def handleB (env : Option String) (fs : FS) (p : String) : Resp :=
  routesB (if noCachePred p then setNoCache emptyResp else emptyResp) env fs p

/-! ## Request sequences (for the statelessness claim) -/

/-- The whole state a running `src/web/server.js` process holds: the
environment captured at startup and the asset tree.  The handlers only read
it. -/
structure ServerState where
  env : Option String
  fs : FS
deriving DecidableEq

/-- One request-response step of variant A: the handler computes a response
from the state; nothing in the source assigns to `FOODY_API`, the Express
app or the asset tree, so the state after the request is the state before. -/
def step (s : ServerState) (p : String) : ServerState × Resp :=
  (s, handleA s.env s.fs p)

/-- Serve a sequence of requests, threading the server state. -/
def serveAll (s : ServerState) (ps : List String) : List Resp :=
  match ps with
  | [] => []
  | p :: rest => (step s p).2 :: serveAll (step s p).1 rest

/-- One request-response step of the README variant; its handlers are
read-only over the state as well. -/
def stepB (s : ServerState) (p : String) : ServerState × Resp :=
  (s, handleB s.env s.fs p)

/-- Serve a sequence of requests with the README variant. -/
def serveAllB (s : ServerState) (ps : List String) : List Resp :=
  match ps with
  | [] => []
  | p :: rest => (stepB s p).2 :: serveAllB (stepB s p).1 rest

/-- Modelled from the spec: the outcome of `app.listen(PORT, cb)` is not in
src/ (it is Node/Express runtime behaviour).  Per the spec's failure
semantics, a port-bind failure raises an error that no handler catches, so
the process terminates with a diagnostic instead of running the callback. -/
def listenOutcome (bindOk : Bool) : Except String Unit :=
  if bindOk then Except.ok () else Except.error "listen EADDRINUSE"

/-! ## Lemmas: the emitted scripts decode back to the embedded string -/

theorem hexVal_hexDigit (k : Nat) (hk : k < 16) : hexVal (hexDigit k) = k := by
  interval_cases k <;> rfl

theorem parseStr_u (q a b : Char) (r2 : List Char) :
    parseStrAux q ('\\' :: 'u' :: '0' :: '0' :: a :: b :: r2)
      = push (Char.ofNat (4096 * hexVal '0' + 256 * hexVal '0' + 16 * hexVal a + hexVal b))
          (parseStrAux q r2) := by
  rw [parseStrAux.eq_def]
  rfl

theorem parseStr_other (q c : Char) (h1 : c ≠ '\\') (h2 : c ≠ q) (rest : List Char) :
    parseStrAux q (c :: rest) = push c (parseStrAux q rest) := by
  rw [parseStrAux.eq_def]
  simp only []
  rw [if_neg h1, if_neg h2]

theorem parse_esc (c : Char) (rest : List Char) :
    parseStrAux '"' (escChar c ++ rest) = push c (parseStrAux '"' rest) := by
  unfold escChar
  by_cases h1 : c = '"'
  · subst h1; rw [parseStrAux.eq_def]; rfl
  rw [if_neg h1]
  by_cases h2 : c = '\\'
  · subst h2; rw [parseStrAux.eq_def]; rfl
  rw [if_neg h2]
  by_cases h3 : c = '\x08'
  · subst h3; rw [parseStrAux.eq_def]; rfl
  rw [if_neg h3]
  by_cases h4 : c = '\x09'
  · subst h4; rw [parseStrAux.eq_def]; rfl
  rw [if_neg h4]
  by_cases h5 : c = '\x0a'
  · subst h5; rw [parseStrAux.eq_def]; rfl
  rw [if_neg h5]
  by_cases h6 : c = '\x0c'
  · subst h6; rw [parseStrAux.eq_def]; rfl
  rw [if_neg h6]
  by_cases h7 : c = '\x0d'
  · subst h7; rw [parseStrAux.eq_def]; rfl
  rw [if_neg h7]
  by_cases h8 : c.toNat < 32
  · rw [if_pos h8]
    have hdiv : c.toNat / 16 < 16 := by omega
    have hmod : c.toNat % 16 < 16 := Nat.mod_lt _ (by omega)
    simp only [List.cons_append, List.nil_append]
    rw [parseStr_u, hexVal_hexDigit _ hdiv, hexVal_hexDigit _ hmod]
    have harith : 4096 * hexVal '0' + 256 * hexVal '0' + 16 * (c.toNat / 16) + c.toNat % 16
        = c.toNat := by
      have h0 : hexVal '0' = 0 := rfl
      rw [h0]; omega
    rw [harith, Char.ofNat_toNat]
  · rw [if_neg h8]
    simp only [List.cons_append, List.nil_append]
    exact parseStr_other _ _ h2 h1 rest

theorem parse_quote_append (cs rest : List Char) :
    parseStrAux '"' (escAll cs ++ ('"' :: rest)) = some (cs, rest) := by
  induction cs with
  | nil =>
    have he : escAll [] = [] := rfl
    rw [he, List.nil_append, parseStrAux.eq_def]
    rfl
  | cons c cs ih =>
    have he : escAll (c :: cs) = escChar c ++ escAll cs := by
      simp [escAll]
    rw [he, List.append_assoc, parse_esc, ih]
    rfl

theorem parseLit_quote (v : String) (rest : List Char) :
    parseLit ((jsonQuote v).data ++ rest) = some (v, rest) := by
  have ha : (jsonQuote v).data ++ rest = '"' :: (escAll v.data ++ ('"' :: rest)) := by
    have hd : (jsonQuote v).data = '"' :: (escAll v.data ++ ['"']) := rfl
    rw [hd]
    simp [List.append_assoc]
  rw [ha]
  have hb : parseLit ('"' :: (escAll v.data ++ ('"' :: rest)))
      = (parseStrAux '"' (escAll v.data ++ ('"' :: rest))).map
          (fun p => (String.mk p.1, p.2)) := rfl
  rw [hb, parse_quote_append]
  rfl

theorem stripPre_self (p cs : List Char) : stripPre p (p ++ cs) = some cs := by
  induction p with
  | nil => rfl
  | cons a ps ih => simp [stripPre, ih]

theorem stripPre_one (a : Char) (cs : List Char) : stripPre [a] (a :: cs) = some cs := by
  simp [stripPre]

theorem takeWhile_append_stop {α : Type} (p : α → Bool) (l1 : List α) (c : α)
    (l2 : List α) (h1 : l1.all p = true) (h2 : p c = false) :
    (l1 ++ c :: l2).takeWhile p = l1 := by
  induction l1 with
  | nil => simp [List.takeWhile, h2]
  | cons a as ih =>
    rw [List.all_cons, Bool.and_eq_true] at h1
    simp [List.takeWhile, h1.1, ih h1.2]

theorem dropWhile_append_stop {α : Type} (p : α → Bool) (l1 : List α) (c : α)
    (l2 : List α) (h1 : l1.all p = true) (h2 : p c = false) :
    (l1 ++ c :: l2).dropWhile p = c :: l2 := by
  induction l1 with
  | nil => simp [List.dropWhile, h2]
  | cons a as ih =>
    rw [List.all_cons, Bool.and_eq_true] at h1
    simp [List.dropWhile, h1.1, ih h1.2]

theorem parseAssign_emit (iden : List Char) (h1 : iden ≠ [])
    (h2 : iden.all isIdentChar = true) (v : String) (rest : List Char) :
    parseAssign ("window.".data ++ (iden ++ ('=' :: ((jsonQuote v).data ++ (';' :: rest)))))
      = some (String.mk iden, v, rest) := by
  have heq : isIdentChar '=' = false := by decide
  have hstrip : stripPre ['='] ('=' :: ((jsonQuote v).data ++ (';' :: rest)))
      = some ((jsonQuote v).data ++ (';' :: rest)) := stripPre_one '=' _
  have hsemi : stripPre [';'] (';' :: rest) = some rest := stripPre_one ';' rest
  cases iden with
  | nil => exact absurd rfl h1
  | cons a as =>
    simp only [parseAssign, stripPre_self,
      takeWhile_append_stop isIdentChar (a :: as) '=' ((jsonQuote v).data ++ (';' :: rest)) h2 heq,
      dropWhile_append_stop isIdentChar (a :: as) '=' ((jsonQuote v).data ++ (';' :: rest)) h2 heq,
      hstrip, parseLit_quote v (';' :: rest), hsemi]

theorem configBodyA_data (v : String) :
    ("window.foodyApi=" ++ jsonQuote v ++ ";").data
      = "window.".data ++ ("foodyApi".data ++ ('=' :: ((jsonQuote v).data ++ (';' :: [])))) := by
  simp only [String.data_append, List.append_assoc]
  rfl

theorem configBodyB_data (v : String) :
    ("window.FOODY_API=" ++ jsonQuote v ++ ";").data
      = "window.".data ++ ("FOODY_API".data ++ ('=' :: ((jsonQuote v).data ++ (';' :: [])))) := by
  simp only [String.data_append, List.append_assoc]
  rfl

theorem parseAssign_bodyA (v : String) :
    parseAssign ("window.foodyApi=" ++ jsonQuote v ++ ";").data
      = some ("foodyApi", v, []) := by
  rw [configBodyA_data]
  exact parseAssign_emit "foodyApi".data (by decide) (by decide) v []

theorem parseAssign_bodyB (v : String) :
    parseAssign ("window.FOODY_API=" ++ jsonQuote v ++ ";").data
      = some ("FOODY_API", v, []) := by
  rw [configBodyB_data]
  exact parseAssign_emit "FOODY_API".data (by decide) (by decide) v []

theorem scriptValue_bodyA (v : String) :
    scriptValue ("window.foodyApi=" ++ jsonQuote v ++ ";") = some ("foodyApi", v) := by
  unfold scriptValue
  rw [parseAssign_bodyA]

theorem scriptValue_bodyB (v : String) :
    scriptValue ("window.FOODY_API=" ++ jsonQuote v ++ ";") = some ("FOODY_API", v) := by
  unfold scriptValue
  rw [parseAssign_bodyB]

theorem scriptValue_errB :
    scriptValue "console.error(\x27FOODY_API is not set or invalid\x27); window.FOODY_API=\x27\x27;"
      = some ("FOODY_API", "") := by decide

/-! ## Lemmas: paths and static resolution -/

theorem isPrefixOf_append_self (l t : List Char) : l.isPrefixOf (l ++ t) = true := by
  induction l with
  | nil => simp [List.isPrefixOf]
  | cons a as ih => simp [List.isPrefixOf, ih]

theorem strPre_append (pre s : String) : strPre pre (pre ++ s) = true := by
  unfold strPre
  rw [String.data_append]
  exact isPrefixOf_append_self _ _

theorem web_ne (d t : String) (ht : strPre "/web/" t = false) : ("/web/" ++ d) ≠ t := by
  intro h
  rw [← h, strPre_append] at ht
  simp at ht

theorem webRel_append (d : String) : webRel ("/web/" ++ d) = some d := by
  unfold webRel
  rw [if_neg (web_ne d "/web" (by decide))]
  rw [if_pos (strPre_append "/web/" d)]
  have h5 : strDrop ("/web/" ++ d) 5 = d := by
    unfold strDrop
    rw [String.data_append]
    have e : ("/web/".data ++ d.data).drop 5 = d.data := by
      have el : "/web/".data.length = 5 := rfl
      rw [← el, List.drop_left]
    rw [e]
  rw [h5]

theorem strDrop_web (d : String) : strDrop ("/web/" ++ d) 1 = "web/" ++ d := by
  unfold strDrop
  rw [String.data_append]
  have e : ("/web/".data ++ d.data).drop 1 = "web/".data ++ d.data := rfl
  rw [e]
  rfl

theorem serveStatic_dir (fs : FS) (r : String) (useExt : Bool)
    (h : r = "" ∨ strEnds r "/" = true) (c : String)
    (hidx : lookupFile fs (r ++ "index.html") = some c) :
    serveStatic fs r useExt = some (StaticHit.file (r ++ "index.html") c) := by
  unfold serveStatic
  rw [if_pos h, hidx]

theorem serveStatic_hit (fs : FS) (r : String) (useExt : Bool)
    (h1 : ¬(r = "" ∨ strEnds r "/" = true)) (c : String)
    (h2 : lookupFile fs r = some c) :
    serveStatic fs r useExt = some (StaticHit.file r c) := by
  unfold serveStatic
  rw [if_neg h1, h2]

theorem serveStatic_ext (fs : FS) (r : String)
    (h1 : ¬(r = "" ∨ strEnds r "/" = true))
    (h2 : lookupFile fs r = none) (h3 : isDirIn fs r = false)
    (hx : hasDotExt r = false) (c : String)
    (h4 : lookupFile fs (r ++ ".html") = some c) :
    serveStatic fs r true = some (StaticHit.file (r ++ ".html") c) := by
  unfold serveStatic
  rw [if_neg h1, h2]
  rw [if_neg (by simp [h3])]
  rw [if_pos (by simp [hx]), h4]

theorem serveStatic_miss (fs : FS) (r : String) (useExt : Bool)
    (h1 : ¬(r = "" ∨ strEnds r "/" = true))
    (h2 : lookupFile fs r = none) (h3 : isDirIn fs r = false)
    (h4 : lookupFile fs (r ++ ".html") = none) :
    serveStatic fs r useExt = none := by
  unfold serveStatic
  rw [if_neg h1, h2]
  simp only []
  rw [if_neg (by simp [h3])]
  split
  · rw [h4]
  · rfl

theorem serveStatic_root (fs : FS) (useExt : Bool) (c : String)
    (hidx : lookupFile fs "index.html" = some c) :
    serveStatic fs "" useExt = some (StaticHit.file "index.html" c) := by
  have h := serveStatic_dir fs "" useExt (Or.inl rfl) c hidx
  exact h

theorem serveStatic_root_miss (fs : FS) (useExt : Bool)
    (hidx : lookupFile fs "index.html" = none) :
    serveStatic fs "" useExt = none := by
  unfold serveStatic
  rw [if_pos (Or.inl rfl)]
  rw [show ("" : String) ++ "index.html" = "index.html" from rfl, hidx]

/-! ## Lemmas: header behaviour of the two pipelines -/

theorem routesB_headers (base : Resp) (env : Option String) (fs : FS) (p : String) :
    (routesB base env fs p).pragma = base.pragma ∧
    (routesB base env fs p).expires = base.expires ∧
    (routesB base env fs p).surrogateControl = base.surrogateControl ∧
    ((routesB base env fs p).cacheControl = base.cacheControl ∨
     (routesB base env fs p).cacheControl = some staticCC) := by
  unfold routesB configRespB tailB notFoundResp
  split
  · split
    · exact ⟨rfl, rfl, rfl, Or.inl rfl⟩
    · exact ⟨rfl, rfl, rfl, Or.inl rfl⟩
  · split
    · split
      · exact ⟨rfl, rfl, rfl, Or.inr rfl⟩
      · exact ⟨rfl, rfl, rfl, Or.inl rfl⟩
      · split
        · exact ⟨rfl, rfl, rfl, Or.inl rfl⟩
        · exact ⟨rfl, rfl, rfl, Or.inl rfl⟩
    · split
      · exact ⟨rfl, rfl, rfl, Or.inl rfl⟩
      · exact ⟨rfl, rfl, rfl, Or.inl rfl⟩

theorem handleA_noNcHeaders (env : Option String) (fs : FS) (p : String) :
    (handleA env fs p).pragma = none ∧ (handleA env fs p).expires = none ∧
    (handleA env fs p).surrogateControl = none ∧
    ((handleA env fs p).cacheControl = none ∨
     (handleA env fs p).cacheControl = some staticCC) := by
  unfold handleA rootStaticA tailA notFoundResp
  split
  · exact ⟨rfl, rfl, rfl, Or.inl rfl⟩
  · split
    · split
      · exact ⟨rfl, rfl, rfl, Or.inr rfl⟩
      · exact ⟨rfl, rfl, rfl, Or.inl rfl⟩
      · split
        · exact ⟨rfl, rfl, rfl, Or.inr rfl⟩
        · exact ⟨rfl, rfl, rfl, Or.inl rfl⟩
        · split
          · exact ⟨rfl, rfl, rfl, Or.inl rfl⟩
          · split
            · exact ⟨rfl, rfl, rfl, Or.inl rfl⟩
            · exact ⟨rfl, rfl, rfl, Or.inl rfl⟩
    · split
      · exact ⟨rfl, rfl, rfl, Or.inr rfl⟩
      · exact ⟨rfl, rfl, rfl, Or.inl rfl⟩
      · split
        · exact ⟨rfl, rfl, rfl, Or.inl rfl⟩
        · split
          · exact ⟨rfl, rfl, rfl, Or.inl rfl⟩
          · exact ⟨rfl, rfl, rfl, Or.inl rfl⟩

/-! ## Claims -/

/-- C1: for every `FOODY_API` value beginning with `http://` or `https://`,
`GET /config.js` returns 200 with content-type `application/javascript` and
a body that is a single `window.<ident>=<literal>;` assignment whose
assigned string is exactly that value — in `src/web/server.js` the
identifier is `foodyApi`, in the README variant it is `FOODY_API`. -/
theorem configjs_assigns_url (env : Option String) (fs1 fs2 : FS)
    (h : strPre "http://" (foodyApiOf env) = true ∨
         strPre "https://" (foodyApiOf env) = true) :
    (handleA env fs1 "/config.js").status = 200 ∧
    (handleA env fs1 "/config.js").contentType = some "application/javascript" ∧
    parseAssign (handleA env fs1 "/config.js").body.data
      = some ("foodyApi", foodyApiOf env, []) ∧
    (handleB env fs2 "/config.js").status = 200 ∧
    (handleB env fs2 "/config.js").contentType = some "application/javascript" ∧
    parseAssign (handleB env fs2 "/config.js").body.data
      = some ("FOODY_API", foodyApiOf env, []) := by
  have hA : handleA env fs1 "/config.js" = configRespA env := rfl
  have hB : handleB env fs2 "/config.js" = configRespB (setNoCache emptyResp) env := rfl
  have hne : foodyApiOf env ≠ "" := by
    intro he
    rcases h with h | h <;> rw [he] at h <;> exact absurd h (by decide)
  have hcond : ¬(foodyApiOf env = "" ∨
      ¬(strPre "http://" (foodyApiOf env) = true ∨
        strPre "https://" (foodyApiOf env) = true)) := by
    intro hc
    rcases hc with hc | hc
    · exact hne hc
    · exact hc h
  have hB2 : configRespB (setNoCache emptyResp) env
      = { setNoCache emptyResp with
          status := 200
          contentType := some "application/javascript"
          body := "window.FOODY_API=" ++ jsonQuote (foodyApiOf env) ++ ";" } := by
    unfold configRespB
    rw [if_neg hcond]
  rw [hA, hB, hB2]
  exact ⟨rfl, rfl, parseAssign_bodyA _, rfl, rfl, parseAssign_bodyB _⟩

/-- Witness for C1 at `FOODY_API=https://api.example.com`. -/
theorem configjs_assigns_url_witness :
    (handleA (some "https://api.example.com") [] "/config.js").status = 200 ∧
    (handleA (some "https://api.example.com") [] "/config.js").contentType
      = some "application/javascript" ∧
    parseAssign (handleA (some "https://api.example.com") [] "/config.js").body.data
      = some ("foodyApi", "https://api.example.com", []) ∧
    (handleB (some "https://api.example.com") [] "/config.js").status = 200 ∧
    (handleB (some "https://api.example.com") [] "/config.js").contentType
      = some "application/javascript" ∧
    parseAssign (handleB (some "https://api.example.com") [] "/config.js").body.data
      = some ("FOODY_API", "https://api.example.com", []) :=
  configjs_assigns_url (some "https://api.example.com") [] [] (Or.inr (by decide))

/-- C2 counterexample: in `src/web/server.js` the `/config.js` response
carries no `Cache-Control` and no `Pragma` header at all, so the claimed
no-cache header set is absent. -/
theorem configjs_serverA_no_cache_header :
    (handleA none [] "/config.js").cacheControl = none ∧
    (handleA none [] "/config.js").pragma = none ∧
    ¬((handleA none [] "/config.js").cacheControl = some ncCC) := by
  refine ⟨rfl, rfl, ?_⟩
  intro h
  have e : (handleA none [] "/config.js").cacheControl = none := rfl
  rw [e] at h
  exact Option.noConfusion h

/-- C2 amended: only the README variant sets the no-cache headers.  There,
every response to a path ending in `.html`, equal to `/` or `/config.js`
carries `Pragma: no-cache`, `Expires: 0` and `Surrogate-Control: no-store`,
and its `Cache-Control` is either the full no-store directive or — when the
`/web` static handler serves an existing file — `public, max-age=0`; in
neither case a positive `max-age`.  `src/web/server.js` never sets Pragma,
Expires or Surrogate-Control, and its `Cache-Control` is absent or
`public, max-age=0`. -/
theorem readme_no_cache_amended (env : Option String) (fs : FS) (p : String)
    (hp : noCachePred p = true) :
    (handleB env fs p).pragma = some "no-cache" ∧
    (handleB env fs p).expires = some "0" ∧
    (handleB env fs p).surrogateControl = some "no-store" ∧
    ((handleB env fs p).cacheControl = some ncCC ∨
     (handleB env fs p).cacheControl = some staticCC) ∧
    noPositiveMaxAge ((handleB env fs p).cacheControl.getD "") = true ∧
    (handleA env fs p).pragma = none ∧
    (handleA env fs p).expires = none ∧
    (handleA env fs p).surrogateControl = none ∧
    ((handleA env fs p).cacheControl = none ∨
     (handleA env fs p).cacheControl = some staticCC) := by
  have hb : handleB env fs p = routesB (setNoCache emptyResp) env fs p := by
    unfold handleB
    rw [hp]
    rfl
  obtain ⟨h1, h2, h3, h4⟩ := routesB_headers (setNoCache emptyResp) env fs p
  obtain ⟨a1, a2, a3, a4⟩ := handleA_noNcHeaders env fs p
  rw [hb]
  refine ⟨h1, h2, h3, h4, ?_, a1, a2, a3, a4⟩
  rcases h4 with h | h <;> rw [h] <;> decide

/-- Witness for C2 amended at `p = /config.js`. -/
theorem readme_no_cache_amended_witness :
    (handleB none [] "/config.js").pragma = some "no-cache" ∧
    (handleB none [] "/config.js").expires = some "0" ∧
    (handleB none [] "/config.js").surrogateControl = some "no-store" ∧
    ((handleB none [] "/config.js").cacheControl = some ncCC ∨
     (handleB none [] "/config.js").cacheControl = some staticCC) ∧
    noPositiveMaxAge ((handleB none [] "/config.js").cacheControl.getD "") = true ∧
    (handleA none [] "/config.js").pragma = none ∧
    (handleA none [] "/config.js").expires = none ∧
    (handleA none [] "/config.js").surrogateControl = none ∧
    ((handleA none [] "/config.js").cacheControl = none ∨
     (handleA none [] "/config.js").cacheControl = some staticCC) :=
  readme_no_cache_amended none [] "/config.js" (by decide)

/-- C3 counterexample: with a file named `health.html` in the asset root,
`GET /health` on `src/web/server.js` is answered by the root static mount
with that file's content, not the fixed `{"ok":true}` payload. -/
theorem health_shadowed :
    (handleA none [("health.html", "hi")] "/health").status = 200 ∧
    (handleA none [("health.html", "hi")] "/health").body = "hi" ∧
    ¬((handleA none [("health.html", "hi")] "/health").body = okJson) := by
  decide

/-- C3 amended: on `src/web/server.js`, `GET /health` returns 200
`{"ok":true}` for every configuration whenever the asset root has no entry
named `health` (file or directory) and no `health.html`; the README variant
has no `/health` route and answers 404. -/
theorem health_amended (env : Option String) (fs : FS) :
    (lookupFile fs "health" = none → isDirIn fs "health" = false →
      lookupFile fs "health.html" = none →
      (handleA env fs "/health").status = 200 ∧
      (handleA env fs "/health").contentType = some "application/json" ∧
      (handleA env fs "/health").body = okJson) ∧
    (handleB env fs "/health").status = 404 := by
  constructor
  · intro h1 h2 h3
    have e1 : handleA env fs "/health" = rootStaticA fs "/health" := rfl
    have e2 : rootStaticA fs "/health" = tailA "/health" := by
      unfold rootStaticA
      rw [show strDrop "/health" 1 = "health" from rfl]
      rw [serveStatic_miss fs "health" true (by decide) h1 h2 h3]
    rw [e1, e2]
    exact ⟨rfl, rfl, rfl⟩
  · rfl

/-- Witness for C3 amended with an empty asset root. -/
theorem health_amended_witness :
    ((handleA none [] "/health").status = 200 ∧
     (handleA none [] "/health").contentType = some "application/json" ∧
     (handleA none [] "/health").body = okJson) ∧
    (handleB none [] "/health").status = 404 :=
  ⟨(health_amended none []).1 (by decide) (by decide) (by decide),
   (health_amended none []).2⟩

/-- C4 counterexample: with an `index.html` at the top of the asset root,
`GET /` on `src/web/server.js` is answered by the root static mount with
that file (status 200), not the 302 redirect. -/
theorem root_shadowed :
    (handleA none [("index.html", "HOME")] "/").status = 200 ∧
    (handleA none [("index.html", "HOME")] "/").body = "HOME" ∧
    ¬((handleA none [("index.html", "HOME")] "/").status = 302) := by
  decide

/-- C4 amended: `GET /` returns 302 with `Location: /web/buyer/` on
`src/web/server.js` provided the asset root has no top-level `index.html`
(the root static mount runs first); the README variant, whose static mount
covers only `/web`, redirects unconditionally. -/
theorem root_redirect_amended (env : Option String) (fs : FS) :
    (lookupFile fs "index.html" = none →
      (handleA env fs "/").status = 302 ∧
      (handleA env fs "/").location = some "/web/buyer/") ∧
    (handleB env fs "/").status = 302 ∧
    (handleB env fs "/").location = some "/web/buyer/" := by
  refine ⟨?_, rfl, rfl⟩
  intro h
  have e1 : handleA env fs "/" = rootStaticA fs "/" := rfl
  have e2 : rootStaticA fs "/" = tailA "/" := by
    unfold rootStaticA
    rw [show strDrop "/" 1 = "" from rfl]
    rw [serveStatic_root_miss fs true h]
  rw [e1, e2]
  exact ⟨rfl, rfl⟩

/-- Witness for C4 amended with an empty asset root. -/
theorem root_redirect_amended_witness :
    (handleA none [] "/").status = 302 ∧
    (handleA none [] "/").location = some "/web/buyer/" ∧
    (handleB none [] "/").status = 302 ∧
    (handleB none [] "/").location = some "/web/buyer/" :=
  ⟨((root_redirect_amended none []).1 (by decide)).1,
   ((root_redirect_amended none []).1 (by decide)).2,
   (root_redirect_amended none []).2.1,
   (root_redirect_amended none []).2.2⟩

/-- C5: for every `FOODY_API` state — unset, empty or malformed included —
`GET /config.js` answers 200 on both variants and the body is a script of
the emitted grammar (`scriptValue` decodes it), and an unset variable is
handled exactly like the empty string. -/
theorem configjs_total_valid (env : Option String) (fs1 fs2 : FS) :
    (handleA env fs1 "/config.js").status = 200 ∧
    (scriptValue (handleA env fs1 "/config.js").body).isSome = true ∧
    (handleB env fs2 "/config.js").status = 200 ∧
    (scriptValue (handleB env fs2 "/config.js").body).isSome = true ∧
    handleA none fs1 "/config.js" = handleA (some "") fs1 "/config.js" ∧
    handleB none fs2 "/config.js" = handleB (some "") fs2 "/config.js" := by
  have hA : handleA env fs1 "/config.js" = configRespA env := rfl
  have hB : handleB env fs2 "/config.js" = configRespB (setNoCache emptyResp) env := rfl
  refine ⟨by rw [hA]; rfl, ?_, ?_, ?_, rfl, rfl⟩
  · rw [hA]
    show (scriptValue ("window.foodyApi=" ++ jsonQuote (foodyApiOf env) ++ ";")).isSome = true
    rw [scriptValue_bodyA]
    rfl
  · rw [hB]
    unfold configRespB
    split
    · rfl
    · rfl
  · rw [hB]
    unfold configRespB
    split
    · show (scriptValue
          "console.error(\x27FOODY_API is not set or invalid\x27); window.FOODY_API=\x27\x27;").isSome
          = true
      rw [scriptValue_errB]
      rfl
    · show (scriptValue ("window.FOODY_API=" ++ jsonQuote (foodyApiOf env) ++ ";")).isSome = true
      rw [scriptValue_bodyB]
      rfl

/-- C6: static-file resolution of `src/web/server.js` under the `/web`
mount: a directory path serves its `index.html` when present; an
extension-less path (no `.` in its last segment, `send`'s `!extname`
guard) with no file, no directory and a same-named `.html` file serves
that file; a path neither mount resolves is answered 404. -/
theorem static_resolution (env : Option String) (fs : FS) :
    (∀ d c, strEnds d "/" = true → lookupFile fs (d ++ "index.html") = some c →
      (handleA env fs ("/web/" ++ d)).status = 200 ∧
      (handleA env fs ("/web/" ++ d)).body = c) ∧
    (∀ r c, ¬(r = "" ∨ strEnds r "/" = true) → lookupFile fs r = none →
      isDirIn fs r = false → hasDotExt r = false →
      lookupFile fs (r ++ ".html") = some c →
      (handleA env fs ("/web/" ++ r)).status = 200 ∧
      (handleA env fs ("/web/" ++ r)).body = c) ∧
    (∀ d, serveStatic fs d true = none → serveStatic fs ("web/" ++ d) true = none →
      (handleA env fs ("/web/" ++ d)).status = 404) := by
  refine ⟨?_, ?_, ?_⟩
  · intro d c hd hidx
    have e : handleA env fs ("/web/" ++ d) = fileResp emptyResp c := by
      unfold handleA
      rw [if_neg (web_ne d "/config.js" (by decide)), webRel_append]
      simp only []
      rw [serveStatic_dir fs d true (Or.inr hd) c hidx]
    rw [e]
    exact ⟨rfl, rfl⟩
  · intro r c h1 h2 h3 hx h4
    have e : handleA env fs ("/web/" ++ r) = fileResp emptyResp c := by
      unfold handleA
      rw [if_neg (web_ne r "/config.js" (by decide)), webRel_append]
      simp only []
      rw [serveStatic_ext fs r h1 h2 h3 hx c h4]
    rw [e]
    exact ⟨rfl, rfl⟩
  · intro d h1 h2
    have e : handleA env fs ("/web/" ++ d) = rootStaticA fs ("/web/" ++ d) := by
      unfold handleA
      rw [if_neg (web_ne d "/config.js" (by decide)), webRel_append]
      simp only []
      rw [h1]
    have e2 : rootStaticA fs ("/web/" ++ d) = tailA ("/web/" ++ d) := by
      unfold rootStaticA
      rw [strDrop_web, h2]
    have e3 : tailA ("/web/" ++ d) = notFoundResp emptyResp ("/web/" ++ d) := by
      unfold tailA
      rw [if_neg (web_ne d "/health" (by decide)), if_neg (web_ne d "/" (by decide))]
    rw [e, e2, e3]
    rfl

/-- Witness for C6: an asset tree with a directory index, an extension-less
page, and a miss. -/
theorem static_resolution_witness :
    ((handleA none [("buyer/index.html", "IDX"), ("page.html", "PG")] "/web/buyer/").status
        = 200 ∧
     (handleA none [("buyer/index.html", "IDX"), ("page.html", "PG")] "/web/buyer/").body
        = "IDX") ∧
    ((handleA none [("buyer/index.html", "IDX"), ("page.html", "PG")] "/web/page").status
        = 200 ∧
     (handleA none [("buyer/index.html", "IDX"), ("page.html", "PG")] "/web/page").body
        = "PG") ∧
    (handleA none [("buyer/index.html", "IDX"), ("page.html", "PG")] "/web/doesnotexist").status
        = 404 :=
  ⟨(static_resolution none [("buyer/index.html", "IDX"), ("page.html", "PG")]).1
      "buyer/" "IDX" (by decide) (by decide),
   (static_resolution none [("buyer/index.html", "IDX"), ("page.html", "PG")]).2.1
      "page" "PG" (by decide) (by decide) (by decide) (by decide) (by decide),
   (static_resolution none [("buyer/index.html", "IDX"), ("page.html", "PG")]).2.2
      "doesnotexist" (by decide) (by decide)⟩

/-- C7 counterexample: with the asset root missing (no files resolvable),
the process still serves requests — `GET /health` answers 200 `{"ok":true}`
— so a missing asset root is not a fatal startup error and requests are
served after it. -/
theorem missing_root_still_serves :
    (handleA none [] "/health").status = 200 ∧
    (handleA none [] "/health").body = okJson ∧
    (handleA none [] "/config.js").status = 200 := by
  decide

/-- C7 amended: a port-bind failure is fatal (the uncaught listen error
ends startup with a diagnostic; modelled from the spec since `app.listen`'s
runtime is not in src/); a missing asset root is not a startup error —
`express.static` never checks its root exists, the process starts and keeps
serving `/health` and `/config.js`, with static paths answered 404. -/
theorem startup_amended (env : Option String) :
    listenOutcome false = Except.error "listen EADDRINUSE" ∧
    listenOutcome true = Except.ok () ∧
    (handleA env [] "/health").status = 200 ∧
    (handleA env [] "/config.js").status = 200 ∧
    (handleA env [] "/web/doesnotexist").status = 404 := by
  exact ⟨rfl, rfl, rfl, rfl, rfl⟩

/-- C8 counterexample: at `FOODY_API=https://x` the two variants assign the
same value to two different global identifiers (`window.foodyApi` vs
`window.FOODY_API`), so they are not equivalent on the emitted assignment. -/
theorem variants_differ_identifier :
    scriptValue (handleA (some "https://x") [] "/config.js").body
      = some ("foodyApi", "https://x") ∧
    scriptValue (handleB (some "https://x") [] "/config.js").body
      = some ("FOODY_API", "https://x") ∧
    ¬(("foodyApi" : String) = "FOODY_API") := by
  decide

/-- C8 amended: for `FOODY_API` values with an `http(s)://` prefix the two
variants assign the same string value but to different identifiers
(`foodyApi` vs `FOODY_API`); for absent or malformed values
`src/web/server.js` assigns the raw value while the README variant emits a
console diagnostic and assigns the empty string. -/
theorem variants_configjs_amended (env : Option String) (fs1 fs2 : FS) :
    ((strPre "http://" (foodyApiOf env) = true ∨
      strPre "https://" (foodyApiOf env) = true) →
      scriptValue (handleA env fs1 "/config.js").body
        = some ("foodyApi", foodyApiOf env) ∧
      scriptValue (handleB env fs2 "/config.js").body
        = some ("FOODY_API", foodyApiOf env)) ∧
    (¬(strPre "http://" (foodyApiOf env) = true ∨
       strPre "https://" (foodyApiOf env) = true) →
      scriptValue (handleA env fs1 "/config.js").body
        = some ("foodyApi", foodyApiOf env) ∧
      scriptValue (handleB env fs2 "/config.js").body
        = some ("FOODY_API", "")) := by
  have hA : handleA env fs1 "/config.js" = configRespA env := rfl
  have hB : handleB env fs2 "/config.js" = configRespB (setNoCache emptyResp) env := rfl
  constructor
  · intro h
    have hne : foodyApiOf env ≠ "" := by
      intro he
      rcases h with h | h <;> rw [he] at h <;> exact absurd h (by decide)
    have hcond : ¬(foodyApiOf env = "" ∨
        ¬(strPre "http://" (foodyApiOf env) = true ∨
          strPre "https://" (foodyApiOf env) = true)) := by
      intro hc
      rcases hc with hc | hc
      · exact hne hc
      · exact hc h
    constructor
    · rw [hA]
      exact scriptValue_bodyA _
    · rw [hB]
      unfold configRespB
      rw [if_neg hcond]
      exact scriptValue_bodyB _
  · intro h
    constructor
    · rw [hA]
      exact scriptValue_bodyA _
    · rw [hB]
      unfold configRespB
      rw [if_pos (Or.inr h)]
      exact scriptValue_errB

/-- Witness for C8 amended: a well-formed URL and the unset case. -/
theorem variants_configjs_amended_witness :
    (scriptValue (handleA (some "https://api.example.com") [] "/config.js").body
       = some ("foodyApi", "https://api.example.com") ∧
     scriptValue (handleB (some "https://api.example.com") [] "/config.js").body
       = some ("FOODY_API", "https://api.example.com")) ∧
    (scriptValue (handleA none [] "/config.js").body = some ("foodyApi", "") ∧
     scriptValue (handleB none [] "/config.js").body = some ("FOODY_API", "")) :=
  ⟨(variants_configjs_amended (some "https://api.example.com") [] []).1
     (Or.inr (by decide)),
   (variants_configjs_amended none [] []).2 (by decide)⟩

/-- C9: the handlers hold no mutable state — each request leaves the server
state (environment and asset tree) unchanged, the response to a request
sequence is the pointwise response to each request against the startup
state, and two requests get the same responses in either order; this holds
for both variants. -/
theorem stateless_idempotent (s : ServerState) (ps : List String) (p q : String) :
    serveAll s ps = ps.map (fun x => (step s x).2) ∧
    (step s p).1 = s ∧
    serveAll s [p, q] = [(step s p).2, (step s q).2] ∧
    serveAll s [q, p] = [(step s q).2, (step s p).2] ∧
    serveAllB s ps = ps.map (fun x => (stepB s x).2) ∧
    (stepB s p).1 = s := by
  refine ⟨?_, rfl, ?_, ?_, ?_, rfl⟩
  · induction ps with
    | nil => rfl
    | cons a as ih =>
      rw [serveAll.eq_def]
      simp only [List.map_cons]
      exact congrArg (fun t => (step s a).2 :: t) ih
  · rfl
  · rfl
  · induction ps with
    | nil => rfl
    | cons a as ih =>
      rw [serveAllB.eq_def]
      simp only [List.map_cons]
      exact congrArg (fun t => (stepB s a).2 :: t) ih

/-- C10: in `src/web/server.js` the root static mount runs before the
`/health` and `/` routes: a top-level `index.html` answers `GET /` with 200
and its content instead of the redirect, a `health` or `health.html` file
answers `GET /health` with its content instead of the JSON payload, and the
route handlers answer only when no such file exists. -/
theorem static_mount_shadows_routes (env : Option String) (fs : FS) (c : String) :
    (lookupFile fs "index.html" = some c →
      (handleA env fs "/").status = 200 ∧ (handleA env fs "/").body = c) ∧
    (lookupFile fs "health" = some c →
      (handleA env fs "/health").status = 200 ∧ (handleA env fs "/health").body = c) ∧
    (lookupFile fs "health" = none → isDirIn fs "health" = false →
      lookupFile fs "health.html" = some c →
      (handleA env fs "/health").status = 200 ∧ (handleA env fs "/health").body = c) ∧
    (lookupFile fs "index.html" = none →
      (handleA env fs "/").status = 302 ∧
      (handleA env fs "/").location = some "/web/buyer/") ∧
    (lookupFile fs "health" = none → isDirIn fs "health" = false →
      lookupFile fs "health.html" = none →
      (handleA env fs "/health").body = okJson) := by
  refine ⟨?_, ?_, ?_, ?_, ?_⟩
  · intro h
    have e1 : handleA env fs "/" = rootStaticA fs "/" := rfl
    have e2 : rootStaticA fs "/" = fileResp emptyResp c := by
      unfold rootStaticA
      rw [show strDrop "/" 1 = "" from rfl]
      rw [serveStatic_root fs true c h]
    rw [e1, e2]
    exact ⟨rfl, rfl⟩
  · intro h
    have e1 : handleA env fs "/health" = rootStaticA fs "/health" := rfl
    have e2 : rootStaticA fs "/health" = fileResp emptyResp c := by
      unfold rootStaticA
      rw [show strDrop "/health" 1 = "health" from rfl]
      rw [serveStatic_hit fs "health" true (by decide) c h]
    rw [e1, e2]
    exact ⟨rfl, rfl⟩
  · intro h1 h2 h3
    have e1 : handleA env fs "/health" = rootStaticA fs "/health" := rfl
    have e2 : rootStaticA fs "/health" = fileResp emptyResp c := by
      unfold rootStaticA
      rw [show strDrop "/health" 1 = "health" from rfl]
      rw [serveStatic_ext fs "health" (by decide) h1 h2 (by decide) c h3]
    rw [e1, e2]
    exact ⟨rfl, rfl⟩
  · intro h
    have e1 : handleA env fs "/" = rootStaticA fs "/" := rfl
    have e2 : rootStaticA fs "/" = tailA "/" := by
      unfold rootStaticA
      rw [show strDrop "/" 1 = "" from rfl]
      rw [serveStatic_root_miss fs true h]
    rw [e1, e2]
    exact ⟨rfl, rfl⟩
  · intro h1 h2 h3
    have e1 : handleA env fs "/health" = rootStaticA fs "/health" := rfl
    have e2 : rootStaticA fs "/health" = tailA "/health" := by
      unfold rootStaticA
      rw [show strDrop "/health" 1 = "health" from rfl]
      rw [serveStatic_miss fs "health" true (by decide) h1 h2 h3]
    rw [e1, e2]
    rfl

/-- Witness for C10: shadowing trees and an empty tree. -/
theorem static_mount_shadows_routes_witness :
    ((handleA none [("index.html", "HOME"), ("health", "OK1")] "/").status = 200 ∧
     (handleA none [("index.html", "HOME"), ("health", "OK1")] "/").body = "HOME") ∧
    ((handleA none [("index.html", "HOME"), ("health", "OK1")] "/health").status = 200 ∧
     (handleA none [("index.html", "HOME"), ("health", "OK1")] "/health").body = "OK1") ∧
    ((handleA none [("health.html", "OK2")] "/health").status = 200 ∧
     (handleA none [("health.html", "OK2")] "/health").body = "OK2") ∧
    ((handleA none [] "/").status = 302 ∧
     (handleA none [] "/").location = some "/web/buyer/") ∧
    (handleA none [] "/health").body = okJson :=
  ⟨(static_mount_shadows_routes none [("index.html", "HOME"), ("health", "OK1")] "HOME").1
      (by decide),
   (static_mount_shadows_routes none [("index.html", "HOME"), ("health", "OK1")] "OK1").2.1
      (by decide),
   (static_mount_shadows_routes none [("health.html", "OK2")] "OK2").2.2.1
      (by decide) (by decide) (by decide),
   (static_mount_shadows_routes none [] "").2.2.2.1 (by decide),
   (static_mount_shadows_routes none [] "").2.2.2.2 (by decide) (by decide) (by decide)⟩

end Foody
